import Mathlib

/-!
# Verification of the doomstack error-chaining library

Shallow embedding of the `doomstack` crate (src/description.rs, src/location.rs,
src/doom.rs, src/entry.rs, src/stack.rs, src/top.rs) and proofs of the spec
claims about it.

The Rust `Doom` trait is modelled as a bundled family `Doom`: `Code` stands for
the collection of concrete Rust types implementing the trait (with the decidable
equality that `TypeId` / `dyn Any` downcasting provides), `Val c` for the values
of the concrete type `c`, and `tag` / `description` / `keep_original` for the
trait methods. Rust's `Arc<dyn Any + Send + Sync>` is modelled as the dependent
pair `Sigma Val` (value semantics: `Arc` cloning shares, so a clone is equal as
a value). Operations that can panic in Rust (`unwrap` on an empty stack) return
`Option`, with `none` modelling the panic.
-/

namespace Doomstack

/-- Models `Description` (src/description.rs): a `Static` (`&'static str`) or
`Owned` (`String`) piece of text. -/
inductive Description where
  | Static (text : String)
  | Owned (text : String)
deriving DecidableEq

/-- Models `Description::as_str` (src/description.rs): the held text, either variant. -/
def Description.as_str : Description → String
  | .Static text => text
  | .Owned text => text

/-- Models `Location` (src/location.rs): a file/line coordinate, equality field-wise. -/
structure Location where
  file : String
  line : Nat
deriving DecidableEq

/-- Models `Display for Location` (src/location.rs): renders as `file:line`. -/
def Location.display (l : Location) : String := l.file ++ ":" ++ toString l.line

/-- Models the `Doom` trait (src/doom.rs) as a family of implementing types.
`keep_original` is taken per value, as `Entry::archive` calls it
(`doom.keep_original()`, src/entry.rs line 85); a per-type policy is the special
case of a constant function. -/
structure Doom where
  Code : Type
  deq : DecidableEq Code
  Val : Code → Type
  tag : (c : Code) → Val c → String
  description : (c : Code) → Val c → Description
  keep_original : (c : Code) → Val c → Bool

variable {D : Doom}

/-- Models `Entry` (src/entry.rs lines 63-69): archived tag, description,
optional location, optional type-erased original. -/
structure Entry (D : Doom) where
  tag : String
  description : Description
  location : Option Location
  original : Option (Sigma D.Val)

/-- Models `Entry::archive` (src/entry.rs lines 74-90): captures tag and
description, and retains the original value iff `keep_original()` says so. -/
def Entry.archive (D : Doom) (c : D.Code) (doom : D.Val c) : Entry D :=
  let entry : Entry D :=
    { tag := D.tag c doom
      description := D.description c doom
      location := none
      original := none }
  if D.keep_original c doom then { entry with original := some ⟨c, doom⟩ } else entry

/-- Models `Entry::spot` (src/entry.rs lines 120-122): overwrites the location. -/
def Entry.spot (e : Entry D) (location : Location) : Entry D :=
  { e with location := some location }

/-- Models `<dyn Any>::downcast_ref::<T>` on a retained original: succeeds iff
the stored type code matches the requested one. -/
def downcast_ref (D : Doom) (c : D.Code) (a : Sigma D.Val) : Option (D.Val c) :=
  match D.deq a.1 c with
  | Decidable.isTrue h => some (h ▸ a.2)
  | Decidable.isFalse _ => none

/-- Models `Display for Entry` (src/entry.rs lines 125-129): the tag. -/
def Entry.displayFmt (e : Entry D) : String := e.tag

/-- Models `Debug for Entry` (src/entry.rs lines 131-141):
`[TAG @ file:line] description` with a location, `[TAG] description` without. -/
def Entry.debugFmt (e : Entry D) : String :=
  match e.location with
  | some location => "[" ++ e.tag ++ " @ " ++ location.display ++ "] " ++ e.description.as_str
  | none => "[" ++ e.tag ++ "] " ++ e.description.as_str

/-- Models `Stack` (src/stack.rs lines 105-108): a `Vec<Entry>`, oldest first. -/
structure Stack (D : Doom) where
  entries : List (Entry D)

/-- Models `Top<D>` (src/top.rs lines 7-12): an unarchived doom value, a pending
location, and the archived stack beneath. -/
structure Top (D : Doom) (c : D.Code) where
  doom : D.Val c
  location : Option Location
  stack : Stack D

/-- Models `Stack::new` (src/stack.rs lines 112-114): the empty stack. -/
def Stack.new (D : Doom) : Stack D := { entries := [] }

/-- Models `Stack::entries` (src/stack.rs lines 118-120): iterates the entries
top (most recently pushed) to bottom (first pushed), i.e. reversed. -/
def Stack.entriesView (s : Stack D) : List (Entry D) := s.entries.reverse

/-- Models `Top::from_parts` (src/top.rs lines 18-24). -/
def Top.from_parts (D : Doom) (c : D.Code) (doom : D.Val c) (stack : Stack D) : Top D c :=
  { doom := doom, location := none, stack := stack }

/-- Models `Stack::push` (src/stack.rs lines 126-131): wraps the new doom and
`self` into a `Top`, archiving nothing. -/
def Stack.push (s : Stack D) (c : D.Code) (doom : D.Val c) : Top D c :=
  Top.from_parts D c doom s

/-- Models `Stack::push_as_stack` (src/stack.rs lines 136-142): archives the
doom into an `Entry` and appends it. -/
def Stack.push_as_stack (s : Stack D) (c : D.Code) (doom : D.Val c) : Stack D :=
  { entries := s.entries ++ [Entry.archive D c doom] }

/-- Models `Stack::spot` (src/stack.rs lines 145-148): spots the last entry;
`none` models the panic of `last_mut().unwrap()` on an empty stack. -/
def Stack.spot (s : Stack D) (location : Location) : Option (Stack D) :=
  match s.entries.getLast? with
  | some e => some { entries := s.entries.dropLast ++ [e.spot location] }
  | none => none

/-- Models `Top::spot` (src/top.rs lines 52-55): sets the pending location. -/
def Top.spot (t : Top D c) (location : Location) : Top D c :=
  { t with location := some location }

/-- Models `Stack::pot` (src/stack.rs lines 153-158): `push` then `Top::spot`. -/
def Stack.pot (s : Stack D) (c : D.Code) (doom : D.Val c) (location : Location) : Top D c :=
  (s.push c doom).spot location

/-- Models `impl From<Top<D>> for Stack` (src/top.rs lines 65-84): archives the
doom, appends it, then applies the pending location if any. The `getD` default
is the branch `Stack::spot` can never reach after `push_as_stack`. -/
def Top.toStack (t : Top D c) : Stack D :=
  let stack := t.stack.push_as_stack c t.doom
  match t.location with
  | some location => (stack.spot location).getD stack
  | none => stack

/-- Models `Top::push` (src/top.rs lines 38-43): `Stack::from(self).push(doom)`. -/
def Top.push (t : Top D c) (p : D.Code) (doom : D.Val p) : Top D p :=
  t.toStack.push p doom

/-- Models `Top::push_as_stack` (src/top.rs lines 45-50). -/
def Top.push_as_stack (t : Top D c) (p : D.Code) (doom : D.Val p) : Stack D :=
  t.toStack.push_as_stack p doom

/-- Models `Top::pot` (src/top.rs lines 57-62): `push` then `spot`. -/
def Top.pot (t : Top D c) (p : D.Code) (doom : D.Val p) (location : Location) : Top D p :=
  (t.push p doom).spot location

/-- Models `Doom::into_top` (src/doom.rs lines 132-134): `Stack::new().push(self)`. -/
def Doom.into_top (D : Doom) (c : D.Code) (doom : D.Val c) : Top D c :=
  (Stack.new D).push c doom

/-- Models `Doom::into_stack` (src/doom.rs lines 161-163): `into_top` then conversion. -/
def Doom.into_stack (D : Doom) (c : D.Code) (doom : D.Val c) : Stack D :=
  (D.into_top c doom).toStack

/-- Models `Doom::fail` (src/doom.rs lines 194-196): `Err(self.into_top())`. -/
def Doom.fail (D : Doom) (c : D.Code) (doom : D.Val c) (O : Type) : Except (Top D c) O :=
  Except.error (D.into_top c doom)

/-- Models `Doom::fail_as_stack` (src/doom.rs lines 227-229): `Err(self.into_stack())`. -/
def Doom.fail_as_stack (D : Doom) (c : D.Code) (doom : D.Val c) (O : Type) : Except (Stack D) O :=
  Except.error (D.into_stack c doom)

/-- Models `#[derive(Clone)]` on `Stack`: cloning is value-preserving (the
`Arc`-held originals are shared, not re-created). -/
def Stack.clone (s : Stack D) : Stack D := s

/-- Models `Display for Stack` (src/stack.rs lines 163-167):
`<top: TAG>` for the last entry; `none` models the panic of
`entries.last().unwrap()` on an empty stack. -/
def Stack.displayFmt (s : Stack D) : Option String :=
  s.entries.getLast?.map (fun e => "<top: " ++ e.displayFmt ++ ">")

/-- Models `Debug for Stack` (src/stack.rs lines 169-177): one `writeln!` per
entry, newest first. -/
def Stack.debugFmt (s : Stack D) : String :=
  String.join (s.entriesView.map (fun e => e.debugFmt ++ "\n"))

/-- Models `Display for Top<D>` (src/top.rs lines 88-95): `<top: TAG>` of the
unarchived doom. -/
def Top.displayFmt (t : Top D c) : String := "<top: " ++ D.tag c t.doom ++ ">"

/-- Models `Debug for Top<D>` (src/top.rs lines 97-116): one line for the
unarchived doom (with the pending location if any), then the stack's debug. -/
def Top.debugFmt (t : Top D c) : String :=
  (match t.location with
   | some location =>
       "[" ++ D.tag c t.doom ++ " @ " ++ location.display ++ "] "
         ++ (D.description c t.doom).as_str
   | none => "[" ++ D.tag c t.doom ++ "] " ++ (D.description c t.doom).as_str)
  ++ "\n" ++ t.stack.debugFmt

/-- Builds a stack by repeated `push_as_stack`, one doom value after another
(test harness for the iteration-order claims). -/
def Stack.pushAll (s : Stack D) (dooms : List (Sigma D.Val)) : Stack D :=
  dooms.foldl (fun acc v => acc.push_as_stack v.1 v.2) s

/-- The pair of an entry's immutable text fields (test harness for the
immutability claims). -/
def tagAndDescription (e : Entry D) : String × Description := (e.tag, e.description)

/-! ## A concrete family of doom types, used to instantiate the theorems -/

/-- Codes for three concrete error types: `A`, `B` and `C`. -/
inductive TestCode where
  | errA
  | errB
  | errC
deriving DecidableEq

/-- A concrete `Doom` family: all three error types carry a numeric field;
only `C` keeps its original. -/
@[reducible] def testDoom : Doom where
  Code := TestCode
  deq := inferInstance
  Val := fun _ => Nat
  tag := fun code _ =>
    match code with
    | .errA => "A"
    | .errB => "B"
    | .errC => "C"
  description := fun code n =>
    match code with
    | .errA => .Static "first"
    | .errB => .Static "second"
    | .errC => .Owned ("code " ++ toString n)
  keep_original := fun code _ =>
    match code with
    | .errC => true
    | _ => false

/-- A concrete location used for spotting in the witnesses. -/
def locTest : Location := { file := "main.rs", line := 7 }

/-- A one-entry stack: `A` archived. -/
def stackA : Stack testDoom := (Stack.new testDoom).push_as_stack TestCode.errA 0

/-- A two-entry stack: `A` then `B` archived. -/
def stackAB : Stack testDoom := stackA.push_as_stack TestCode.errB 1

/-! ## Basic lemmas about the embedded operations -/

/-- `Entry::archive` spelled as a single record: the original is kept iff
`keep_original()` holds. -/
theorem Entry.archive_def (D : Doom) (c : D.Code) (doom : D.Val c) :
    Entry.archive D c doom =
      { tag := D.tag c doom
        description := D.description c doom
        location := none
        original := if D.keep_original c doom then some ⟨c, doom⟩ else none } := by
  unfold Entry.archive
  split <;> rfl

/-- `Stack::spot` on a stack whose entries end with `e` spots `e`. -/
theorem Stack.spot_concat (D : Doom) (es : List (Entry D)) (e : Entry D) (l : Location) :
    Stack.spot { entries := es ++ [e] } l = some { entries := es ++ [e.spot l] } := by
  unfold Stack.spot
  simp [List.getLast?_concat, List.dropLast_concat]

/-- Characterization of a successful `Stack::spot`. -/
theorem Stack.spot_eq_some (D : Doom) (s : Stack D) (l : Location) (s2 : Stack D)
    (h : s.spot l = some s2) :
    ∃ es e, s.entries = es ++ [e] ∧ s2 = { entries := es ++ [e.spot l] } := by
  rcases List.eq_nil_or_concat s.entries with h0 | ⟨es, e, hc⟩
  · exfalso
    have hs : s = { entries := [] } := by cases s; cases h0; rfl
    rw [hs] at h
    exact Option.noConfusion h
  · rw [List.concat_eq_append] at hc
    refine ⟨es, e, hc, ?_⟩
    have hs : s = { entries := es ++ [e] } := by cases s; cases hc; rfl
    rw [hs, Stack.spot_concat] at h
    exact (Option.some.injEq _ _ ▸ h).symm

/-- The entries of the `Stack` obtained from a `Top`: the old entries followed
by the archived doom carrying the pending location. -/
theorem Top.toStack_entries (D : Doom) (c : D.Code) (t : Top D c) :
    t.toStack.entries =
      t.stack.entries ++
        [{ tag := D.tag c t.doom
           description := D.description c t.doom
           location := t.location
           original := if D.keep_original c t.doom then some ⟨c, t.doom⟩ else none }] := by
  unfold Top.toStack
  cases ht : t.location with
  | none =>
      show (t.stack.push_as_stack c t.doom).entries = _
      rw [Stack.push_as_stack, Entry.archive_def]
  | some l =>
      show (((t.stack.push_as_stack c t.doom).spot l).getD _).entries = _
      rw [show t.stack.push_as_stack c t.doom
            = { entries := t.stack.entries ++ [Entry.archive D c t.doom] } from rfl]
      rw [Stack.spot_concat]
      rw [Entry.archive_def]
      rfl

/-- Downcasting a retained original to its own type succeeds with the value. -/
theorem downcast_ref_mk (D : Doom) (c : D.Code) (v : D.Val c) :
    downcast_ref D c ⟨c, v⟩ = some v := by
  unfold downcast_ref
  cases D.deq (Sigma.mk c v).1 c with
  | isTrue h => rfl
  | isFalse h => exact absurd rfl h

theorem stackA_entries_ne : stackA.entries ≠ [] := by
  intro h
  exact List.cons_ne_nil _ _ h

theorem stackAB_entries_ne : stackAB.entries ≠ [] := by
  intro h
  simp [stackAB, stackA, Stack.new, Stack.push_as_stack] at h

/-! ## The spec claims -/

/-- C1: Converting a `Top<D>` `t` into a `Stack` yields the stack whose entries
are `t`'s underlying stack's entries followed by one new topmost entry whose
tag is `t.doom().tag()`, whose description is `t.doom().description()`, whose
location equals `t`'s pending location, and whose original is present iff
`keep_original()` is true; the pre-existing entries are unchanged. -/
theorem top_into_stack_appends_archived_entry (D : Doom) (c : D.Code) (t : Top D c) :
    t.toStack.entries =
      t.stack.entries ++
        [{ tag := D.tag c t.doom
           description := D.description c t.doom
           location := t.location
           original := if D.keep_original c t.doom then some ⟨c, t.doom⟩ else none }] :=
  Top.toStack_entries D c t

/-- C4: `entries()` on a stack built by pushing `v1, v2, v3` (in that order)
yields their entries newest first (`v3, v2, v1`), and in general the public
iteration of a stack built by repeated `push_as_stack` is the reverse of
insertion order. -/
theorem entries_iterate_newest_first (D : Doom) (c1 c2 c3 : D.Code)
    (v1 : D.Val c1) (v2 : D.Val c2) (v3 : D.Val c3)
    (s : Stack D) (dooms : List (Sigma D.Val)) :
    ((((Stack.new D).push_as_stack c1 v1).push_as_stack c2 v2).push_as_stack c3 v3).entriesView
        = [Entry.archive D c3 v3, Entry.archive D c2 v2, Entry.archive D c1 v1] ∧
      (s.pushAll dooms).entriesView
        = (dooms.map (fun d => Entry.archive D d.1 d.2)).reverse ++ s.entriesView := by
  constructor
  · rfl
  · induction dooms generalizing s with
    | nil => simp [Stack.pushAll]
    | cons d ds ih =>
        rw [show Stack.pushAll s (d :: ds) = Stack.pushAll (s.push_as_stack d.1 d.2) ds from rfl]
        rw [ih]
        simp [Stack.entriesView, Stack.push_as_stack]

/-- C5: `push_as_stack` produces the same stack as `push` immediately converted
to a `Stack`, and the chain `into_top().push(other).push_as_stack(...)` yields
the same stack as the one built by repeated `push_as_stack`. -/
theorem push_as_stack_equals_push_then_convert (D : Doom) (s : Stack D)
    (c1 c2 c3 d : D.Code) (v1 : D.Val c1) (v2 : D.Val c2) (v3 : D.Val c3) (v : D.Val d) :
    s.push_as_stack d v = (s.push d v).toStack ∧
      ((D.into_top c1 v1).push c2 v2).push_as_stack c3 v3 =
        (((Stack.new D).push_as_stack c1 v1).push_as_stack c2 v2).push_as_stack c3 v3 :=
  ⟨rfl, rfl⟩

/-- C9: `into_top()` wraps the value with an empty underlying stack and no
pending location, and `fail()` is exactly the `Err` variant carrying
`into_top()`. -/
theorem into_top_is_fresh (D : Doom) (c : D.Code) (v : D.Val c) (O : Type) :
    (D.into_top c v).doom = v ∧
      (D.into_top c v).stack.entries = [] ∧
      (D.into_top c v).location = none ∧
      D.fail c v O = Except.error (D.into_top c v) :=
  ⟨rfl, rfl, rfl, rfl⟩

/-- C10: pushing a new doom onto a `Top` consumes the pending location into the
entry archiving the old doom: the new `Top`'s stack is exactly the conversion
of the old `Top` (whose last entry carries the old pending location), the new
`Top`'s own location is `None`, and `pot` is `push` followed by `spot`. -/
theorem top_push_clears_pending_location (D : Doom) (c p : D.Code)
    (t : Top D c) (v : D.Val p) (l : Location) :
    (t.push p v).location = none ∧
      (t.push p v).stack = t.toStack ∧
      t.toStack.entries.getLast?.map Entry.location = some t.location ∧
      t.pot p v l = (t.push p v).spot l := by
  refine ⟨rfl, rfl, ?_, rfl⟩
  rw [Top.toStack_entries, List.getLast?_concat]
  rfl

/-- C3 as stated is refuted: spotting an empty stack is not the only fatal
condition — `Display for Stack` also calls `entries.last().unwrap()` and
panics on an empty stack. Rendering the freshly constructed empty stack
produces no string (the modelled panic). -/
theorem display_on_empty_stack_is_fatal :
    (Stack.displayFmt (Stack.new testDoom)).isSome = false := rfl

/-- C3 (amended): `Stack::spot` and `Display` on an empty stack are the only
fatal-misuse conditions; each fails exactly when the stack has no entries, and
the `Debug` rendering is total even on the empty stack. -/
theorem fatal_conditions_exactly_spot_and_display_on_empty
    (D : Doom) (s : Stack D) (l : Location) :
    (s.spot l = none ↔ s.entries = []) ∧
      (s.displayFmt = none ↔ s.entries = []) ∧
      (Stack.new D).debugFmt = "" := by
  refine ⟨?_, ?_, rfl⟩
  · unfold Stack.spot
    cases hq : s.entries.getLast? with
    | none => simpa using List.getLast?_eq_none_iff.mp hq
    | some e =>
        constructor
        · intro hcontra
          exact Option.noConfusion hcontra
        · intro h0
          rw [h0] at hq
          simp at hq
  · unfold Stack.displayFmt
    rw [Option.map_eq_none']
    exact List.getLast?_eq_none_iff

/-- C2: archiving a doom value keeps no original when `keep_original()` is
false — and recovering an original from the enclosing stack yields nothing,
however many times the stack is cloned — while when `keep_original()` is true
the original is retained and downcasting it to the value's own type succeeds,
yielding the value itself. -/
theorem archive_original_policy (D : Doom) (c : D.Code) (v : D.Val c) :
    (D.keep_original c v = false →
        (Entry.archive D c v).original = none ∧
        ∀ n : Nat,
          (Stack.clone^[n] ((Stack.new D).push_as_stack c v)).entries.map Entry.original
            = [none]) ∧
    (D.keep_original c v = true →
        (Entry.archive D c v).original = some ⟨c, v⟩ ∧
        downcast_ref D c ⟨c, v⟩ = some v) := by
  constructor
  · intro hko
    constructor
    · rw [Entry.archive_def]
      simp [hko]
    · intro n
      rw [Function.iterate_fixed rfl n]
      simp [Stack.new, Stack.push_as_stack, Entry.archive_def, hko]
  · intro hko
    refine ⟨?_, downcast_ref_mk D c v⟩
    rw [Entry.archive_def]
    simp [hko]

/-- C2 witness: the `A` error (which does not keep its original) archives with
no original even after three stack clones, while the `C` error (which does)
archives with a retained original that downcasts back to the value `42`. -/
theorem archive_original_policy_witness :
    (testDoom.keep_original TestCode.errA 0 = false ∧
        (Entry.archive testDoom TestCode.errA 0).original = none ∧
        (Stack.clone^[3] ((Stack.new testDoom).push_as_stack TestCode.errA 0)).entries.map
            Entry.original = [none]) ∧
    (testDoom.keep_original TestCode.errC 42 = true ∧
        (Entry.archive testDoom TestCode.errC 42).original = some ⟨TestCode.errC, 42⟩ ∧
        downcast_ref testDoom TestCode.errC ⟨TestCode.errC, 42⟩ = some 42) :=
  ⟨⟨rfl, ((archive_original_policy testDoom TestCode.errA 0).1 rfl).1,
      ((archive_original_policy testDoom TestCode.errA 0).1 rfl).2 3⟩,
   ⟨rfl, ((archive_original_policy testDoom TestCode.errC 42).2 rfl).1,
      ((archive_original_policy testDoom TestCode.errC 42).2 rfl).2⟩⟩

/-- C6: on a non-empty stack, `spot` rewrites only the most recently appended
entry's location to the given one (overwriting any previous value), leaving
every earlier entry unchanged and the last entry's tag, description and
original unchanged; on an empty stack, `spot` is the fatal `unwrap` panic. -/
theorem spot_updates_only_last_entry (D : Doom) (s : Stack D) (l : Location) :
    (∀ h : s.entries ≠ [],
        s.spot l =
          some { entries := s.entries.dropLast
                   ++ [{ s.entries.getLast h with location := some l }] }) ∧
      (s.entries = [] → s.spot l = none) := by
  constructor
  · intro h
    unfold Stack.spot
    rw [List.getLast?_eq_getLast s.entries h]
    rfl
  · intro h0
    unfold Stack.spot
    rw [h0]
    rfl

/-- C6 witness: spotting the concrete two-entry stack `[A, B]` sets the `B`
entry's location to the given one and leaves the `A` entry's location alone. -/
theorem spot_updates_only_last_entry_witness :
    (stackAB.spot locTest).map (fun s2 => s2.entries.map Entry.location)
      = some [none, some locTest] := by
  rw [(spot_updates_only_last_entry testDoom stackAB locTest).1 stackAB_entries_ne]
  rfl

/-- C7: once archived, an entry's tag and description never change: `push`
keeps the stack intact, `push_as_stack` and conversion from a `Top` only
append, a successful `spot` preserves every entry's tag, description and
original and rewrites nothing but the last entry's location, `Top::spot` and
`Top::pot` touch no archived entry, and cloning is the identity. -/
theorem archived_tag_description_immutable (D : Doom) (s : Stack D) (c p : D.Code)
    (v : D.Val c) (t : Top D c) (w : D.Val p) (l : Location) :
    (s.push c v).stack = s ∧
      (s.push_as_stack c v).entries.map tagAndDescription
          = s.entries.map tagAndDescription ++ [(D.tag c v, D.description c v)] ∧
      (∀ s2, s.spot l = some s2 →
          s2.entries.map tagAndDescription = s.entries.map tagAndDescription ∧
          s2.entries.dropLast = s.entries.dropLast ∧
          s2.entries.map Entry.original = s.entries.map Entry.original) ∧
      t.toStack.entries.map tagAndDescription
          = t.stack.entries.map tagAndDescription
              ++ [(D.tag c t.doom, D.description c t.doom)] ∧
      (t.spot l).stack = t.stack ∧
      (t.pot p w l).stack = t.toStack ∧
      Stack.clone s = s := by
  refine ⟨rfl, ?_, ?_, ?_, rfl, rfl, rfl⟩
  · simp [Stack.push_as_stack, Entry.archive_def, tagAndDescription]
  · intro s2 h
    obtain ⟨es, e, hse, hs2⟩ := Stack.spot_eq_some D s l s2 h
    rw [hs2, hse]
    refine ⟨?_, ?_, ?_⟩ <;>
      simp [tagAndDescription, Entry.spot, List.dropLast_concat]
  · rw [Top.toStack_entries]
    simp [tagAndDescription]

/-- C7 witness: on the concrete stack `[A, B]`, a successful spot preserves
every entry's tag and description. -/
theorem archived_tag_description_immutable_witness :
    (stackAB.spot locTest).map (fun s2 => s2.entries.map tagAndDescription)
      = some (stackAB.entries.map tagAndDescription) := by
  have hq : stackAB.spot locTest
      = some { entries := stackA.entries
                 ++ [(Entry.archive testDoom TestCode.errB 1).spot locTest] } :=
    Stack.spot_concat testDoom stackA.entries (Entry.archive testDoom TestCode.errB 1) locTest
  have h := (archived_tag_description_immutable testDoom stackAB TestCode.errA
      TestCode.errB 0 (testDoom.into_top TestCode.errA 0) 1 locTest).2.2.1 _ hq
  rw [hq]
  simp only [Option.map_some']
  rw [h.1]

/-- C8: `Display` on a non-empty `Stack` yields exactly `<top: TAG>` with the
most recent entry's tag, and on a `Top` with the unarchived doom's tag;
`Debug` yields one line per entry, newest first, formatted
`[TAG @ file:line] description` when a location was spotted and
`[TAG] description` otherwise (a `Top`'s own line using its pending location,
followed by its stack's lines). -/
theorem display_debug_formats (D : Doom) (s : Stack D) (c : D.Code) (t : Top D c)
    (h : s.entries ≠ []) :
    s.displayFmt = some ("<top: " ++ (s.entries.getLast h).tag ++ ">") ∧
      t.displayFmt = "<top: " ++ D.tag c t.doom ++ ">" ∧
      s.debugFmt = String.join (s.entriesView.map (fun e =>
        (match e.location with
         | some loc => "[" ++ e.tag ++ " @ " ++ (loc.file ++ ":" ++ toString loc.line)
             ++ "] " ++ e.description.as_str
         | none => "[" ++ e.tag ++ "] " ++ e.description.as_str) ++ "\n")) ∧
      t.debugFmt =
        (match t.location with
         | some loc => "[" ++ D.tag c t.doom ++ " @ " ++ (loc.file ++ ":"
             ++ toString loc.line) ++ "] " ++ (D.description c t.doom).as_str
         | none => "[" ++ D.tag c t.doom ++ "] " ++ (D.description c t.doom).as_str)
          ++ "\n" ++ t.stack.debugFmt := by
  refine ⟨?_, rfl, ?_, ?_⟩
  · unfold Stack.displayFmt
    rw [List.getLast?_eq_getLast s.entries h]
    rfl
  · unfold Stack.debugFmt
    congr 1
  · unfold Top.debugFmt
    cases ht : t.location with
    | some loc => simp [Location.display]
    | none => simp

/-- C8 witness: the concrete stack `[A, B]` renders as `<top: B>` under
`Display`, and its `Debug` rendering lists `B` then `A`. -/
theorem display_debug_formats_witness :
    Stack.displayFmt stackAB = some "<top: B>" ∧
      Stack.debugFmt stackAB = "[B] second\n[A] first\n" := by
  have h := display_debug_formats testDoom stackAB TestCode.errA
      (testDoom.into_top TestCode.errA 0) stackAB_entries_ne
  refine ⟨?_, ?_⟩
  · rw [h.1]
    rfl
  · rw [h.2.2.1]
    rfl

end Doomstack
